import Mathlib

/-!
Shallow embedding of the FusionLogger record pipeline
(src/fusion_logger/defs.py, processors.py, core.py) and proofs of the
specified properties.

Conventions of the embedding:
* Python strings are Lean `String`s; the template scanner works on the
  underlying `List Char` (Python `str.find` plus slicing is modelled by
  `findSplit`, which splits a character list at the first occurrence of a
  character).
* Python `float` timestamps are Lean `Float`; the rendering of a timestamp
  by `datetime.fromtimestamp(...).strftime(...)` is external standard-library
  behaviour, so it is passed in as an arbitrary function `fmtTs : Float → String`.
* The `while` loop of `parse_template` advances its position strictly at every
  iteration, so it is embedded as a structurally recursive function on a fuel
  counter bounded by the length of the remaining input; the fuel is provably
  never exhausted (`parseTemplateGo_fuel`).
* Side effects of `FusionLogProcessor.process_record` (stdout, per-file append,
  a raised exception) are reified as an explicit effect list plus an
  `Option String` carrying the path whose `open` raised; the processor's queue
  state is threaded through explicitly so that theorems can speak about its
  (non-)use.  Python `set` iteration for the sink files is modelled by a list
  in iteration order.
-/

/-- Severity levels of defs.py, with their numeric Python enum values. -/
inductive FusionLogLevel where
  | DEBUG
  | INFO
  | WARNING
  | CRITICAL
deriving DecidableEq

/-- Python enum value: DEBUG = 0, INFO = 1, WARNING = 2, CRITICAL = 3. -/
def FusionLogLevel.value : FusionLogLevel → Nat
  | .DEBUG => 0
  | .INFO => 1
  | .WARNING => 2
  | .CRITICAL => 3

/-- Python enum member name as given by `level.name`. -/
def FusionLogLevel.name : FusionLogLevel → String
  | .DEBUG => "DEBUG"
  | .INFO => "INFO"
  | .WARNING => "WARNING"
  | .CRITICAL => "CRITICAL"

/-- Template tokens of defs.py: a LiteralToken holds a fixed string, a
FormatToken holds a placeholder key. -/
inductive Token where
  | literal (lit : String)
  | format (key : String)
deriving DecidableEq

/-- A compiled formatter (class FusionLogFormatter): it owns the token list
produced by parse_template. -/
structure FusionLogFormatter where
  tokens : List Token
deriving DecidableEq

/-- Mutable logger configuration (class FusionLogger of core.py).  The
processor singleton is not a field here; its interaction is modelled at the
call sites (log / process_record). -/
structure FusionLogger where
  name : String
  scope : String
  min_level : FusionLogLevel
  formatter : FusionLogFormatter
  hostname : String
  pid : Int
  tid : Int
  log_files : List String
deriving DecidableEq

/-- Log record (dataclass FusionLogRecord of defs.py). -/
structure FusionLogRecord where
  logger : FusionLogger
  level : FusionLogLevel
  message : String
  timestamp : Float
  hostname : String
  process_id : Int
  thread_id : Int
  exception : Option String
  files : List String

/-- Splits a character list at the first occurrence of the character, the
embedding of Python `str.find` followed by slicing: `some (p, q)` means the
input is `p ++ c :: q` with no `c` in `p`; `none` means `c` does not occur. -/
def findSplit (c : Char) : List Char → Option (List Char × List Char)
  | [] => none
  | x :: xs =>
    if x = c then some ([], xs)
    else
      match findSplit c xs with
      | none => none
      | some (p, q) => some (x :: p, q)

theorem findSplit_eq_some {c : Char} : ∀ {cs p q : List Char},
    findSplit c cs = some (p, q) → cs = p ++ c :: q ∧ c ∉ p := by
  intro cs
  induction cs with
  | nil => intro p q h; simp [findSplit] at h
  | cons x xs ih =>
    intro p q h
    by_cases hx : x = c
    · simp [findSplit, hx] at h
      obtain ⟨hp, hq⟩ := h
      subst hp; subst hq; subst hx
      simp
    · simp [findSplit, hx] at h
      match hf : findSplit c xs with
      | none => rw [hf] at h; simp at h
      | some (p', q') =>
        rw [hf] at h
        simp at h
        obtain ⟨hp, hq⟩ := h
        obtain ⟨h1, h2⟩ := ih hf
        subst hp; subst hq
        refine ⟨by simp [h1], ?_⟩
        simp only [List.mem_cons]
        push_neg
        exact ⟨fun hc => hx hc.symm, h2⟩

theorem findSplit_eq_none {c : Char} : ∀ {cs : List Char},
    findSplit c cs = none ↔ c ∉ cs := by
  intro cs
  induction cs with
  | nil => simp [findSplit]
  | cons x xs ih =>
    by_cases hx : x = c
    · subst hx; simp [findSplit]
    · match hf : findSplit c xs with
      | none =>
        simp only [findSplit, hx, if_false, hf, List.mem_cons]
        push_neg
        simp only [hf] at ih
        constructor
        · intro _; exact ⟨fun hc => hx hc.symm, ih.mp trivial⟩
        · intro _; trivial
      | some (p', q') =>
        simp only [findSplit, hx, if_false, hf, List.mem_cons]
        push_neg
        simp only [hf] at ih
        constructor
        · intro h; simp at h
        · intro h
          exact absurd (ih.mpr h.2) (by simp)

theorem findSplit_append {c : Char} : ∀ {p : List Char}, c ∉ p → ∀ (q : List Char),
    findSplit c (p ++ c :: q) = some (p, q) := by
  intro p
  induction p with
  | nil => intro _ q; simp [findSplit]
  | cons x xs ih =>
    intro hp q
    simp only [List.mem_cons] at hp
    push_neg at hp
    obtain ⟨h1, h2⟩ := hp
    have hx : ¬x = c := fun hc => h1 hc.symm
    simp [findSplit, hx, ih h2 q]

/-- One iteration of the parse_template while loop (processors.py, lines
18-43), recursing on the remaining input; the fuel counter makes the
recursion structural and is never exhausted when it starts at the input
length (parseTemplateGo_fuel). -/
def parseTemplateGo : Nat → List Char → List Token
  | _, [] => []
  | 0, _ => []
  | fuel + 1, cs =>
    match findSplit '{' cs with
    | none => [Token.literal (String.mk cs)]
    | some (pre, rest) =>
      let lits : List Token :=
        if pre = [] then [] else [Token.literal (String.mk pre)]
      match findSplit '}' rest with
      | none => lits ++ [Token.literal (String.mk ('{' :: rest))]
      | some (key, rest2) =>
        lits ++ Token.format (String.mk key) :: parseTemplateGo fuel rest2

/-- The parse_template scanner on character lists. -/
def parseTemplateAux (cs : List Char) : List Token :=
  parseTemplateGo cs.length cs

/-- parse_template of processors.py. -/
def parse_template (template : String) : List Token :=
  parseTemplateAux template.toList

/-- FusionLogFormatter.__init__: compile the template once. -/
def FusionLogFormatter.ofTemplate (template : String) : FusionLogFormatter :=
  ⟨parse_template template⟩

theorem parseTemplateGo_fuel : ∀ (n : Nat) (cs : List Char), cs.length ≤ n →
    ∀ (f1 f2 : Nat), cs.length ≤ f1 → cs.length ≤ f2 →
    parseTemplateGo f1 cs = parseTemplateGo f2 cs := by
  intro n
  induction n using Nat.strong_induction_on with
  | _ n ih =>
    intro cs hn f1 f2 h1 h2
    match cs with
    | [] => cases f1 <;> cases f2 <;> rfl
    | x :: xs =>
      match f1, f2 with
      | a + 1, b + 1 =>
        show parseTemplateGo (a + 1) (x :: xs) = parseTemplateGo (b + 1) (x :: xs)
        cases hf : findSplit '{' (x :: xs) with
        | none => simp only [parseTemplateGo, hf]
        | some pr =>
          obtain ⟨pre, rest⟩ := pr
          cases hg : findSplit '}' rest with
          | none => simp only [parseTemplateGo, hf, hg]
          | some kr =>
            obtain ⟨key, rest2⟩ := kr
            obtain ⟨e1, _⟩ := findSplit_eq_some hf
            obtain ⟨e2, _⟩ := findSplit_eq_some hg
            have hL1 := congrArg List.length e1
            have hL2 := congrArg List.length e2
            simp only [List.length_cons, List.length_append] at hL1 hL2 h1 h2 hn
            have ha : rest2.length ≤ a := by omega
            have hb : rest2.length ≤ b := by omega
            have hm : rest2.length < n := by omega
            have ea := ih rest2.length hm rest2 (le_refl _) a rest2.length ha (le_refl _)
            have eb := ih rest2.length hm rest2 (le_refl _) b rest2.length hb (le_refl _)
            simp only [parseTemplateGo, hf, hg, ea, eb]

theorem parseTemplateAux_nil : parseTemplateAux [] = [] := rfl

theorem parseTemplateAux_noBrace (cs : List Char) (h0 : cs ≠ [])
    (h : findSplit '{' cs = none) :
    parseTemplateAux cs = [Token.literal (String.mk cs)] := by
  match cs with
  | [] => exact absurd rfl h0
  | x :: xs => simp only [parseTemplateAux, List.length_cons, parseTemplateGo, h]

theorem parseTemplateAux_unmatched (cs pre rest : List Char)
    (h : findSplit '{' cs = some (pre, rest))
    (h2 : findSplit '}' rest = none) :
    parseTemplateAux cs =
      (if pre = [] then [] else [Token.literal (String.mk pre)]) ++
        [Token.literal (String.mk ('{' :: rest))] := by
  obtain ⟨e1, _⟩ := findSplit_eq_some h
  match cs, e1 with
  | _, rfl =>
    match hx : pre ++ '{' :: rest with
    | [] => simp at hx
    | x :: xs =>
      rw [hx] at h
      simp only [parseTemplateAux, List.length_cons, parseTemplateGo, h, h2]

theorem parseTemplateAux_step (cs pre rest key rest2 : List Char)
    (h : findSplit '{' cs = some (pre, rest))
    (h2 : findSplit '}' rest = some (key, rest2)) :
    parseTemplateAux cs =
      (if pre = [] then [] else [Token.literal (String.mk pre)]) ++
        Token.format (String.mk key) :: parseTemplateAux rest2 := by
  obtain ⟨e1, _⟩ := findSplit_eq_some h
  obtain ⟨e2, _⟩ := findSplit_eq_some h2
  match cs, e1 with
  | _, rfl =>
    match hx : pre ++ '{' :: rest with
    | [] => simp at hx
    | x :: xs =>
      rw [hx] at h
      have hL1 := congrArg List.length hx
      have hL2 := congrArg List.length e2
      simp only [List.length_cons, List.length_append] at hL1 hL2
      have hfits : rest2.length ≤ xs.length := by omega
      have := parseTemplateGo_fuel (xs.length + 1) rest2 (by omega)
        xs.length rest2.length (by omega) (le_refl _)
      simp only [parseTemplateAux, List.length_cons, parseTemplateGo, h, h2, this]

/-- FormatToken.apply of defs.py (lines 224-266): the if/elif chain on the
placeholder key, in source order; `fmtTs` is the external
`datetime.fromtimestamp(...).strftime("%Y-%m-%d %H:%M:%S")` rendering. -/
def formatTokenApply (fmtTs : Float → String) (key : String)
    (record : FusionLogRecord) (built : String) : String :=
  if key = "NAME" then built ++ record.logger.name
  else if key = "SCOPE" then built ++ record.logger.scope
  else if key = "TIMESTAMP" then built ++ fmtTs record.timestamp
  else if key = "LEVEL" then built ++ record.level.name.take 4
  else if key = "HOSTNAME" then built ++ record.hostname
  else if key = "MESSAGE" then built ++ record.message
  else if key = "PID" then built ++ toString record.process_id
  else if key = "TID" then built ++ toString record.thread_id
  else built ++ "UNKNOWN_FORMAT"

/-- Token.apply: dispatch to LiteralToken.apply or FormatToken.apply. -/
def Token.apply (fmtTs : Float → String) :
    Token → FusionLogRecord → String → String
  | Token.literal lit, _, built => built ++ lit
  | Token.format key, record, built => formatTokenApply fmtTs key record built

/-- The token-visiting loop of FusionLogFormatter.apply_template, started
from an arbitrary accumulator. -/
def applyTokens (fmtTs : Float → String) (toks : List Token)
    (record : FusionLogRecord) (out : String) : String :=
  toks.foldl (fun o t => Token.apply fmtTs t record o) out

/-- FusionLogFormatter.apply_template (processors.py, lines 11-15). -/
def FusionLogFormatter.apply_template (fmtTs : Float → String)
    (f : FusionLogFormatter) (record : FusionLogRecord) : String :=
  applyTokens fmtTs f.tokens record ""

/-- Token.apply with the object state made explicit: each branch of the
source method only reads the record and returns a string, assigning to no
field, so the record component of the result is the input record. -/
def Token.applyState (fmtTs : Float → String) :
    Token → FusionLogRecord → String → String × FusionLogRecord
  | Token.literal lit, record, built => (built ++ lit, record)
  | Token.format key, record, built =>
    (formatTokenApply fmtTs key record built, record)

/-- apply_template with the formatter and record state threaded through
every token application and returned to the caller. -/
def applyTemplateState (fmtTs : Float → String) (f : FusionLogFormatter)
    (record : FusionLogRecord) : String × FusionLogFormatter × FusionLogRecord :=
  let p := f.tokens.foldl (fun acc t => Token.applyState fmtTs t acc.2 acc.1)
    ("", record)
  (p.1, f, p.2)

/-- FusionLogger.__is_enabled (core.py, lines 168-178). -/
def FusionLogger.is_enabled (l : FusionLogger) (level : FusionLogLevel) : Bool :=
  l.min_level.value ≤ level.value

/-- FusionLogger.__log (core.py, lines 142-166): returns the record handed to
`self.processor.process_record`, or `none` when the level check fails and the
call falls through without constructing a record.  The timestamp `ts` stands
for the external `time.time()` call. -/
def FusionLogger.logAux (l : FusionLogger) (level : FusionLogLevel)
    (message : String) (exception : Option String) (ts : Float) :
    Option FusionLogRecord :=
  if l.is_enabled level then
    some
      { logger := l
        level := level
        message := message
        timestamp := ts
        hostname := l.hostname
        process_id := l.pid
        thread_id := l.tid
        exception := exception
        files := l.log_files }
  else none

/-- FusionLogger.debug. -/
def FusionLogger.debug (l : FusionLogger) (message : String)
    (exception : Option String) (ts : Float) : Option FusionLogRecord :=
  l.logAux FusionLogLevel.DEBUG message exception ts

/-- FusionLogger.info. -/
def FusionLogger.info (l : FusionLogger) (message : String)
    (exception : Option String) (ts : Float) : Option FusionLogRecord :=
  l.logAux FusionLogLevel.INFO message exception ts

/-- FusionLogger.warning. -/
def FusionLogger.warning (l : FusionLogger) (message : String)
    (exception : Option String) (ts : Float) : Option FusionLogRecord :=
  l.logAux FusionLogLevel.WARNING message exception ts

/-- FusionLogger.critical. -/
def FusionLogger.critical (l : FusionLogger) (message : String)
    (exception : Option String) (ts : Float) : Option FusionLogRecord :=
  l.logAux FusionLogLevel.CRITICAL message exception ts

/-- FusionLogger.begin_scope. -/
def FusionLogger.begin_scope (l : FusionLogger) (scope : String) : FusionLogger :=
  { l with scope := scope }

/-- FusionLogger.end_scope (core.py, lines 121-129): clear the scope only
when the supplied name matches the active one. -/
def FusionLogger.end_scope (l : FusionLogger) (scope : String) : FusionLogger :=
  if l.scope = scope then { l with scope := "" } else l

/-- Observable side effects of FusionLogProcessor.process_record. -/
inductive Effect where
  | stdout (s : String)
  | fileOpen (path : String)
  | fileWrite (path : String) (content : String)
deriving DecidableEq

/-- The sink-file loop of process_record: `env path` tells whether opening
`path` in append mode succeeds.  Returns the effects performed and, when an
open raised, the offending path; the loop body has no try/except, so the
first failure abandons the remaining files. -/
def writeSinks (env : String → Bool) (out : String) :
    List String → List Effect × Option String
  | [] => ([], none)
  | f :: fs =>
    if env f then
      let w := writeSinks env out fs
      (Effect.fileOpen f :: Effect.fileWrite f out ::
        Effect.fileWrite f "\n" :: w.1, w.2)
    else ([], some f)

/-- FusionLogProcessor.process_record (processors.py, lines 89-108): render
via the record's logger's formatter, print to stdout, then append to each
sink file.  The method is synchronous and never touches the processor's
`_queue`, so the queue state `q` passes through unchanged; the `Option String`
component is the exception (unwritable path) propagating to the caller. -/
def process_record (env : String → Bool) (fmtTs : Float → String)
    (q : List FusionLogRecord) (record : FusionLogRecord) :
    List FusionLogRecord × List Effect × Option String :=
  let out := record.logger.formatter.apply_template fmtTs record
  let w := writeSinks env out record.files
  (q, Effect.stdout out :: w.1, w.2)

/-- A concrete logger configuration used for closed witness statements:
the defaults of FusionLogger.__init__ with the demo template of core.py
section 8 of the spec. -/
def sampleLogger : FusionLogger :=
  { name := "FusionLogger"
    scope := ""
    min_level := FusionLogLevel.INFO
    formatter := FusionLogFormatter.ofTemplate "[\x7bLEVEL\x7d] \x7bMESSAGE\x7d"
    hostname := "host"
    pid := 1
    tid := 2
    log_files := [] }

/-- A concrete Warning-level record with message "disk low". -/
def sampleWarnRecord : FusionLogRecord :=
  { logger := sampleLogger
    level := FusionLogLevel.WARNING
    message := "disk low"
    timestamp := 0.0
    hostname := "host"
    process_id := 1
    thread_id := 2
    exception := none
    files := [] }

theorem logAux_isSome_iff (l : FusionLogger) (level : FusionLogLevel)
    (message : String) (exception : Option String) (ts : Float) :
    (l.logAux level message exception ts).isSome ↔
      l.min_level.value ≤ level.value := by
  unfold FusionLogger.logAux FusionLogger.is_enabled
  by_cases h : l.min_level.value ≤ level.value <;> simp [h]

/-- C1: debug/info/warning/critical hand a record to the processor exactly
when the level's rank reaches the configured minimum; below the minimum the
call constructs no record at all (the returned option is the record passed
to process_record). -/
theorem c1_level_filter (l : FusionLogger) (message : String)
    (exception : Option String) (ts : Float) :
    (∀ level, (l.logAux level message exception ts).isSome ↔
      l.min_level.value ≤ level.value) ∧
    (∀ level, level.value < l.min_level.value →
      l.logAux level message exception ts = none) ∧
    l.debug message exception ts = l.logAux FusionLogLevel.DEBUG message exception ts ∧
    l.info message exception ts = l.logAux FusionLogLevel.INFO message exception ts ∧
    l.warning message exception ts = l.logAux FusionLogLevel.WARNING message exception ts ∧
    l.critical message exception ts = l.logAux FusionLogLevel.CRITICAL message exception ts := by
  refine ⟨fun level => logAux_isSome_iff l level message exception ts, ?_, rfl, rfl, rfl, rfl⟩
  intro level h
  have : ¬(l.logAux level message exception ts).isSome := by
    rw [logAux_isSome_iff]
    omega
  cases hv : l.logAux level message exception ts with
  | none => rfl
  | some r => rw [hv] at this; simp at this

/-- Witness for C1 at a concrete logger whose minimum level is INFO: a
debug call yields no record. -/
theorem c1_witness :
    sampleLogger.logAux FusionLogLevel.DEBUG "m" none 0.0 = none :=
  (c1_level_filter sampleLogger "m" none 0.0).2.1 FusionLogLevel.DEBUG (by decide)

/-- C9: end_scope clears the scope exactly when the supplied name matches
the active scope, and touches no other logger field. -/
theorem c9_end_scope (l : FusionLogger) (s : String) :
    ((l.end_scope s).scope = if l.scope = s then "" else l.scope) ∧
    (l.scope ≠ s → l.end_scope s = l) ∧
    (l.end_scope s).name = l.name ∧
    (l.end_scope s).min_level = l.min_level ∧
    (l.end_scope s).formatter = l.formatter ∧
    (l.end_scope s).log_files = l.log_files ∧
    (l.end_scope s).hostname = l.hostname ∧
    (l.end_scope s).pid = l.pid ∧
    (l.end_scope s).tid = l.tid := by
  unfold FusionLogger.end_scope
  by_cases h : l.scope = s <;> simp [h]

/-- Witness for C9: a mismatched end_scope call leaves the sample logger
unchanged. -/
theorem c9_witness : sampleLogger.end_scope "x" = sampleLogger :=
  (c9_end_scope sampleLogger "x").2.1 (by decide)

/-- C4: a format key outside the eight known placeholder names appends the
sentinel "UNKNOWN_FORMAT" and nothing else. -/
theorem c4_unknown_key (fmtTs : Float → String) (key : String)
    (record : FusionLogRecord) (built : String)
    (h : key ∉ (["NAME", "SCOPE", "LEVEL", "HOSTNAME", "MESSAGE",
      "TIMESTAMP", "PID", "TID"] : List String)) :
    formatTokenApply fmtTs key record built = built ++ "UNKNOWN_FORMAT" := by
  simp only [List.mem_cons, List.not_mem_nil, or_false] at h
  push_neg at h
  obtain ⟨h1, h2, h3, h4, h5, h6, h7, h8⟩ := h
  simp [formatTokenApply, h1, h2, h3, h4, h5, h6, h7, h8]

/-- Witness for C4: the key "BOGUS" renders to exactly "UNKNOWN_FORMAT". -/
theorem c4_witness :
    formatTokenApply (fun _ => "") "BOGUS" sampleWarnRecord "" = "UNKNOWN_FORMAT" := by
  have := c4_unknown_key (fun _ => "") "BOGUS" sampleWarnRecord "" (by decide)
  simpa using this

/-- C5: the LEVEL placeholder appends the first four characters of the level
name; those four-character labels are DEBU, INFO, WARN, CRIT and are already
upper-case, and the template "[LEVEL-placeholder] MESSAGE-placeholder"
renders the sample Warning record to "[WARN] disk low". -/
theorem c5_level_rendering (fmtTs : Float → String) (record : FusionLogRecord)
    (built : String) :
    formatTokenApply fmtTs "LEVEL" record built = built ++ record.level.name.take 4 ∧
    FusionLogLevel.DEBUG.name.take 4 = "DEBU" ∧
    FusionLogLevel.INFO.name.take 4 = "INFO" ∧
    FusionLogLevel.WARNING.name.take 4 = "WARN" ∧
    FusionLogLevel.CRITICAL.name.take 4 = "CRIT" ∧
    (∀ level : FusionLogLevel,
      (level.name.take 4).toList.map Char.toUpper = (level.name.take 4).toList) ∧
    (FusionLogFormatter.ofTemplate
        "[\x7bLEVEL\x7d] \x7bMESSAGE\x7d").apply_template fmtTs sampleWarnRecord =
      "[WARN] disk low" := by
  refine ⟨rfl, by decide, by decide, by decide, by decide, ?_, rfl⟩
  intro level
  cases level <;> decide

theorem applyState_foldl (fmtTs : Float → String) :
    ∀ (toks : List Token) (record : FusionLogRecord) (out : String),
    toks.foldl (fun acc t => Token.applyState fmtTs t acc.2 acc.1) (out, record) =
      (applyTokens fmtTs toks record out, record) := by
  intro toks
  induction toks with
  | nil => intro record out; rfl
  | cons t ts ih =>
    intro record out
    have hstep : Token.applyState fmtTs t record out =
        (Token.apply fmtTs t record out, record) := by
      cases t <;> rfl
    simp only [List.foldl_cons, hstep, ih, applyTokens]

/-- C6: rendering is pure — threading the formatter and record state through
every token application returns them unchanged together with the rendered
string, and rendering again from the returned state yields the identical
string. -/
theorem c6_render_pure (fmtTs : Float → String) (f : FusionLogFormatter)
    (record : FusionLogRecord) :
    applyTemplateState fmtTs f record =
      (f.apply_template fmtTs record, f, record) ∧
    (applyTemplateState fmtTs (applyTemplateState fmtTs f record).2.1
        (applyTemplateState fmtTs f record).2.2).1 =
      (applyTemplateState fmtTs f record).1 := by
  have h : applyTemplateState fmtTs f record =
      (f.apply_template fmtTs record, f, record) := by
    unfold applyTemplateState FusionLogFormatter.apply_template
    rw [applyState_foldl]
  exact ⟨h, by simp [h]⟩

/-- Counterexample to C2: in the template consisting of two opening braces,
the key KEY and two closing braces, the scanner pairs the first opening brace
with the first closing brace, so the FormatToken key is the four characters
open-brace K E Y — not the innermost text KEY. -/
theorem c2_counterexample :
    parse_template "\x7b\x7bKEY\x7d\x7d" =
      [Token.format "\x7bKEY", Token.literal "\x7d"] ∧
    Token.format "KEY" ∉ parse_template "\x7b\x7bKEY\x7d\x7d" := by
  constructor
  · decide
  · decide

/-- C2 (amended): the text before the next opening brace becomes a
LiteralToken when non-empty, and the FormatToken key is the literal text
between that opening brace and the first following closing brace — a
substring that may itself contain opening braces; scanning then resumes
after that closing brace. -/
theorem c2_amended_first_close (a k b : List Char)
    (ha : '{' ∉ a) (hk : '}' ∉ k) :
    parseTemplateAux (a ++ '{' :: (k ++ '}' :: b)) =
      (if a = [] then [] else [Token.literal (String.mk a)]) ++
        Token.format (String.mk k) :: parseTemplateAux b := by
  have h1 : findSplit '{' (a ++ '{' :: (k ++ '}' :: b)) =
      some (a, k ++ '}' :: b) := findSplit_append ha _
  have h2 : findSplit '}' (k ++ '}' :: b) = some (k, b) := findSplit_append hk b
  exact parseTemplateAux_step _ _ _ _ _ h1 h2

/-- Witness for the amended C2, instantiated at the counterexample template:
the key picked up is open-brace K E Y and the trailing closing brace is left
to the continuation of the scan. -/
theorem c2_amended_witness :
    parseTemplateAux ([] ++ '{' :: (['{', 'K', 'E', 'Y'] ++ '}' :: ['}'])) =
      (if ([] : List Char) = [] then [] else [Token.literal (String.mk [])]) ++
        Token.format (String.mk ['{', 'K', 'E', 'Y']) ::
          parseTemplateAux ['}'] :=
  c2_amended_first_close [] ['{', 'K', 'E', 'Y'] ['}'] (by decide) (by decide)

theorem parseNoEmptyLiteral : ∀ (n : Nat) (cs : List Char), cs.length ≤ n →
    ∀ (lit : String), Token.literal lit ∈ parseTemplateAux cs → lit ≠ "" := by
  intro n
  induction n using Nat.strong_induction_on with
  | _ n ih =>
    intro cs hn lit hmem
    match cs with
    | [] => simp [parseTemplateAux_nil] at hmem
    | x :: xs =>
      cases hf : findSplit '{' (x :: xs) with
      | none =>
        rw [parseTemplateAux_noBrace (x :: xs) (by simp) hf] at hmem
        simp at hmem
        subst hmem
        simp [String.ext_iff]
      | some pr =>
        obtain ⟨pre, rest⟩ := pr
        cases hg : findSplit '}' rest with
        | none =>
          rw [parseTemplateAux_unmatched (x :: xs) pre rest hf hg] at hmem
          rw [List.mem_append] at hmem
          rcases hmem with hmem | hmem
          · by_cases hp : pre = []
            · simp [hp] at hmem
            · simp [hp] at hmem
              subst hmem
              simp [String.ext_iff, hp]
          · simp at hmem
            subst hmem
            simp [String.ext_iff]
        | some kr =>
          obtain ⟨key, rest2⟩ := kr
          rw [parseTemplateAux_step (x :: xs) pre rest key rest2 hf hg] at hmem
          rw [List.mem_append] at hmem
          rcases hmem with hmem | hmem
          · by_cases hp : pre = []
            · simp [hp] at hmem
            · simp [hp] at hmem
              subst hmem
              simp [String.ext_iff, hp]
          · rw [List.mem_cons] at hmem
            rcases hmem with hmem | hmem
            · simp at hmem
            · obtain ⟨e1, _⟩ := findSplit_eq_some hf
              obtain ⟨e2, _⟩ := findSplit_eq_some hg
              have hL1 := congrArg List.length e1
              have hL2 := congrArg List.length e2
              simp only [List.length_cons, List.length_append] at hL1 hL2 hn
              exact ih rest2.length (by omega) rest2 (le_refl _) lit hmem

/-- C10: parse_template never emits an empty LiteralToken, for any template;
in particular not between adjacent placeholders or at the ends of the
template. -/
theorem c10_no_empty_literal (template : String) (lit : String)
    (hmem : Token.literal lit ∈ parse_template template) : lit ≠ "" :=
  parseNoEmptyLiteral template.toList.length template.toList (le_refl _) lit hmem

/-- Witness for C10: the literal token produced for the one-character
template "a" is non-empty. -/
theorem c10_witness : ("a" : String) ≠ "" :=
  c10_no_empty_literal "a" "a" (by decide)

theorem applyTokens_append (fmtTs : Float → String) (t1 t2 : List Token)
    (record : FusionLogRecord) (out : String) :
    applyTokens fmtTs (t1 ++ t2) record out =
      applyTokens fmtTs t2 record (applyTokens fmtTs t1 record out) := by
  simp [applyTokens, List.foldl_append]

theorem parseUnmatchedTail : ∀ (n : Nat) (u : List Char), u.length ≤ n →
    ∀ (v : List Char), '}' ∉ v →
    (∀ u1 u2, u = u1 ++ '{' :: u2 → '}' ∈ u2) →
    ∃ toks, parseTemplateAux (u ++ '{' :: v) =
      toks ++ [Token.literal (String.mk ('{' :: v))] := by
  intro n
  induction n using Nat.strong_induction_on with
  | _ n ih =>
    intro u hn v hv hmin
    by_cases hu : '{' ∈ u
    · cases hsplit : findSplit '{' u with
      | none => exact absurd (findSplit_eq_none.mp hsplit) (by simp [hu])
      | some p1 =>
        obtain ⟨u1, u2⟩ := p1
        obtain ⟨e1, hnb1⟩ := findSplit_eq_some hsplit
        have hclose : '}' ∈ u2 := hmin u1 u2 e1
        cases hsplit2 : findSplit '}' u2 with
        | none => exact absurd (findSplit_eq_none.mp hsplit2) (by simp [hclose])
        | some p2 =>
          obtain ⟨k, u3⟩ := p2
          obtain ⟨e2, hnb2⟩ := findSplit_eq_some hsplit2
          have hwhole : u ++ '{' :: v = u1 ++ '{' :: (u2 ++ '{' :: v) := by
            rw [e1]; simp
          have hfind1 : findSplit '{' (u ++ '{' :: v) =
              some (u1, u2 ++ '{' :: v) := by
            rw [hwhole]; exact findSplit_append hnb1 _
          have hrest : u2 ++ '{' :: v = k ++ '}' :: (u3 ++ '{' :: v) := by
            rw [e2]; simp
          have hfind2 : findSplit '}' (u2 ++ '{' :: v) =
              some (k, u3 ++ '{' :: v) := by
            rw [hrest]; exact findSplit_append hnb2 _
          have hstep := parseTemplateAux_step (u ++ '{' :: v) u1
            (u2 ++ '{' :: v) k (u3 ++ '{' :: v) hfind1 hfind2
          have hmin3 : ∀ a b, u3 = a ++ '{' :: b → '}' ∈ b := by
            intro a b hab
            apply hmin (u1 ++ '{' :: (k ++ '}' :: a)) b
            rw [e1, e2, hab]
            simp
          have hL1 := congrArg List.length e1
          have hL2 := congrArg List.length e2
          simp only [List.length_cons, List.length_append] at hL1 hL2 hn
          obtain ⟨toks3, htoks3⟩ := ih u3.length (by omega) u3 (le_refl _) v hv hmin3
          refine ⟨(if u1 = [] then [] else [Token.literal (String.mk u1)]) ++
            Token.format (String.mk k) :: toks3, ?_⟩
          rw [hstep, htoks3]
          simp
    · have hfind1 : findSplit '{' (u ++ '{' :: v) = some (u, v) :=
        findSplit_append hu v
      have hfind2 : findSplit '}' v = none := findSplit_eq_none.mpr hv
      refine ⟨if u = [] then [] else [Token.literal (String.mk u)], ?_⟩
      exact parseTemplateAux_unmatched (u ++ '{' :: v) u v hfind1 hfind2

/-- C3: when the scan reaches an opening brace with no later closing brace
(every earlier opening brace is followed by a closing one), the whole
remainder of the template from that brace on becomes a single trailing
LiteralToken — never a FormatToken — and the rendered output of the compiled
template reproduces that trailing text verbatim; compilation is a total
function, so it never raises. -/
theorem c3_unmatched_brace_literal (u v : List Char) (hv : '}' ∉ v)
    (hmin : ∀ u1 u2, u = u1 ++ '{' :: u2 → '}' ∈ u2) :
    ∃ toks, parseTemplateAux (u ++ '{' :: v) =
        toks ++ [Token.literal (String.mk ('{' :: v))] ∧
      ∀ fmtTs record out,
        applyTokens fmtTs (parseTemplateAux (u ++ '{' :: v)) record out =
          applyTokens fmtTs toks record out ++ String.mk ('{' :: v) := by
  obtain ⟨toks, htoks⟩ := parseUnmatchedTail u.length u (le_refl _) v hv hmin
  refine ⟨toks, htoks, ?_⟩
  intro fmtTs record out
  rw [htoks, applyTokens_append]
  rfl

/-- Witness for C3 at the template "open-brace KEY": the whole template is
one literal token and renders verbatim. -/
theorem c3_witness :
    ∃ toks, parseTemplateAux ([] ++ '{' :: ['K', 'E', 'Y']) =
        toks ++ [Token.literal (String.mk ('{' :: ['K', 'E', 'Y']))] ∧
      ∀ fmtTs record out,
        applyTokens fmtTs (parseTemplateAux ([] ++ '{' :: ['K', 'E', 'Y'])) record out =
          applyTokens fmtTs toks record out ++ String.mk ('{' :: ['K', 'E', 'Y']) :=
  c3_unmatched_brace_literal [] ['K', 'E', 'Y'] (by decide)
    (by intro u1 u2 h; simp at h)

/-- An environment in which opening "a.log" for append raises and every
other path is writable. -/
def sinkEnv : String → Bool := fun p => p != "a.log"

/-- A record listing two sink files, the first of which is unwritable under
sinkEnv. -/
def twoSinkRecord : FusionLogRecord :=
  { logger :=
      { name := "FusionLogger"
        scope := ""
        min_level := FusionLogLevel.INFO
        formatter := FusionLogFormatter.ofTemplate "\x7bMESSAGE\x7d"
        hostname := "host"
        pid := 1
        tid := 2
        log_files := ["a.log", "b.log"] }
    level := FusionLogLevel.INFO
    message := "hello"
    timestamp := 0.0
    hostname := "host"
    process_id := 1
    thread_id := 2
    exception := none
    files := ["a.log", "b.log"] }

/-- C7 is violated by the code: the sink loop of process_record has no
try/except, so when the first sink file is unwritable the raised exception
propagates out of process_record (the error component is set) and the
remaining sink file is never opened or written. -/
theorem c7_sink_failure_propagates :
    (process_record sinkEnv (fun _ => "") [] twoSinkRecord).2.2 = some "a.log" ∧
    Effect.fileOpen "b.log" ∉
      (process_record sinkEnv (fun _ => "") [] twoSinkRecord).2.1 ∧
    Effect.fileWrite "b.log" "hello" ∉
      (process_record sinkEnv (fun _ => "") [] twoSinkRecord).2.1 := by
  refine ⟨by decide, by decide, by decide⟩

/-- C8 is violated by the code: process_record performs the rendering and all
writes synchronously inside the call and leaves the processor queue exactly
as it was — no record is ever pushed onto the queue and no background worker
exists to dequeue one. -/
theorem c8_synchronous_no_queue (env : String → Bool) (fmtTs : Float → String)
    (q : List FusionLogRecord) (record : FusionLogRecord) :
    (process_record env fmtTs q record).1 = q ∧
    (process_record env fmtTs q record).2.1 =
      Effect.stdout (record.logger.formatter.apply_template fmtTs record) ::
        (writeSinks env
          (record.logger.formatter.apply_template fmtTs record) record.files).1 := by
  exact ⟨rfl, rfl⟩
